import Mathlib

/-!
Verification of the `banks_project.py` ETL pipeline: a shallow embedding of
its data model (pandas-style dataframe with named columns), the `extract`,
`transform`, `load_to_csv`, `load_to_db` and `run_query` stages, and the
`__main__` driver, with theorems settling the specification's claims.
-/

set_option autoImplicit false

namespace Banks

/-- A cell value in a dataframe: a string (raw scraped text), a numeric value
(Python floats are modelled as exact rationals), or NaN (the fill value pandas
uses when concatenation aligns rows against columns they lack). -/
inductive Value where
  | str (s : String)
  | num (q : ℚ)
  | nan
  deriving DecidableEq, Repr

/-- One dataframe row, as pandas stores it after `pd.concat` alignment: an
association of column names to values; a column name not bound in the row
reads as NaN. -/
abbrev RowDict := List (String × Value)

/-- The first binding of a column name in a row, if any. -/
def lookupV : RowDict → String → Option Value
  | [], _ => none
  | (c', v) :: r, c => if c' = c then some v else lookupV r c

/-- Reading a row at a column name: the first binding, NaN when absent
(pandas alignment fill). -/
def getVal (r : RowDict) (c : String) : Value :=
  (lookupV r c).getD Value.nan

/-- A pandas DataFrame, shallowly: an ordered list of column names and an
ordered list of rows. -/
structure DataFrame where
  columns : List String
  rows : List RowDict
  deriving DecidableEq, Repr

/-- The `pd.concat` column alignment: the left frame's columns, followed by those
columns of the right frame not already present. -/
def concatCols (cols1 cols2 : List String) : List String :=
  cols1 ++ cols2.filter (fun c => decide (c ∉ cols1))

/-- An `<a>` element: its `.contents` child list, children rendered as
strings. -/
structure ATag where
  contents : List String
  deriving DecidableEq, Repr

/-- A `<td>` cell: the anchors `find_all('a')` returns, and its `.contents`
child list rendered as strings. -/
structure Td where
  anchors : List ATag
  contents : List String
  deriving DecidableEq, Repr

/-- A `<tr>` table row: its `<td>` cells. -/
structure Tr where
  tds : List Td
  deriving DecidableEq, Repr

/-- A `<tbody>` element: its `<tr>` rows. -/
structure Tbody where
  trs : List Tr
  deriving DecidableEq, Repr

/-- The parsed HTML page: the list `find_all('tbody')` returns. -/
structure HtmlDoc where
  tbodys : List Tbody
  deriving DecidableEq, Repr

/-- The one failure mode of `extract`: every failing access in its body
(`table[0]`, `col[1]`, `bank_name[1]`, `.contents[0]`, `col[2]`) is a Python
`IndexError` (out-of-bounds list indexing). -/
inductive ExtractErr where
  | indexError
  deriving DecidableEq, Repr

/-- Python list indexing `xs[i]`: the element, or an `IndexError`. -/
def pyIndex {α : Type} (xs : List α) (i : ℕ) : Except ExtractErr α :=
  match xs.get? i with
  | some x => Except.ok x
  | none => Except.error ExtractErr.indexError

/-- The column names `extract` hardcodes in its `data_dict` literal:
`{'Name': ..., 'MC_USD_Billion': ...}`. -/
def hardcodedCols : List String := ["Name", "MC_USD_Billion"]

/-- The body of `extract`'s per-row loop: skip the row when it has no `<td>`
(`len(col) != 0` guard); otherwise take the second anchor of the second cell
(`col[1].find_all('a')`, then `bank_name[1].contents[0]`) as the name and the
third cell's first child (`col[2].contents[0]`) as the metric, in the source's
evaluation order. `find_all` never returns `None`, so the `if bank_name is not
None` test in the source is always true and is not modelled. Returns `none`
for a skipped row. -/
def processRow (row : Tr) : Except ExtractErr (Option RowDict) :=
  let col := row.tds
  if col.length ≠ 0 then
    match pyIndex col 1 with
    | Except.error e => Except.error e
    | Except.ok c1 =>
      match pyIndex c1.anchors 1 with
      | Except.error e => Except.error e
      | Except.ok a =>
        match pyIndex a.contents 0 with
        | Except.error e => Except.error e
        | Except.ok nm =>
          match pyIndex col 2 with
          | Except.error e => Except.error e
          | Except.ok c2 =>
            match pyIndex c2.contents 0 with
            | Except.error e => Except.error e
            | Except.ok metric =>
              Except.ok (some [("Name", Value.str nm),
                               ("MC_USD_Billion", Value.str metric)])
  else Except.ok none

/-- The step `pd.concat([df, df1], ignore_index=True)` where `df1` is the one-row frame
`pd.DataFrame(data_dict, index=[0])`: columns are aligned (new names appended),
the row is appended. -/
def concatRow (df : DataFrame) (d : RowDict) : DataFrame :=
  { columns := concatCols df.columns (d.map Prod.fst)
    rows := df.rows ++ [d] }

/-- The `for row in rows` loop of `extract`: thread the growing frame through
the rows, skipping rows `processRow` skips, appending the others, aborting on
the first error. -/
def extractRows (df : DataFrame) : List Tr → Except ExtractErr DataFrame
  | [] => Except.ok df
  | tr :: trs =>
    match processRow tr with
    | Except.error e => Except.error e
    | Except.ok none => extractRows df trs
    | Except.ok (some d) => extractRows (concatRow df d) trs

/-- The function `extract` from `banks_project.py`: build an empty frame over
`table_attributes`, take the first `<tbody>` (`table[0]`, `IndexError` when
the page has none), and fold its rows through `processRow`/`concatRow`. -/
def extract (doc : HtmlDoc) (table_attributes : List String) :
    Except ExtractErr DataFrame :=
  match pyIndex doc.tbodys 0 with
  | Except.error e => Except.error e
  | Except.ok tb => extractRows { columns := table_attributes, rows := [] } tb.trs

/-! ## Transform stage -/

/-- Numeric value of a decimal digit character. -/
def digitVal (c : Char) : ℕ := c.toNat - 48

/-- Value of a digit string read in base 10. -/
def natOfDigits (ds : List Char) : ℕ :=
  ds.foldl (fun a c => 10 * a + digitVal c) 0

/-- An optional leading `+`/`-` sign: returns (negative?, rest). -/
def parseSign : List Char → Bool × List Char
  | '-' :: cs => (true, cs)
  | '+' :: cs => (false, cs)
  | cs => (false, cs)

/-- Python `str.split(sep)` with a one-character separator: the list of
(possibly empty) segments between occurrences of the separator; never
empty. -/
def pySplit (sep : Char) : List Char → List (List Char)
  | [] => [[]]
  | c :: cs =>
    if c = sep then [] :: pySplit sep cs
    else
      match pySplit sep cs with
      | [] => [[c]]
      | g :: gs => (c :: g) :: gs

/-- Python `''.join(segments)`: concatenation. -/
def pyJoin (gs : List (List Char)) : List Char :=
  gs.flatten

/-- The whitespace stripping `float()` applies to its argument. -/
def trimChars (cs : List Char) : List Char :=
  ((cs.dropWhile Char.isWhitespace).reverse.dropWhile Char.isWhitespace).reverse

/-- An optional exponent part closing the literal: empty input means exponent
0, otherwise `e`/`E`, optional sign, at least one digit, and nothing after. -/
def parseExp : List Char → Option ℤ
  | [] => some 0
  | c :: cs =>
    if c = 'e' ∨ c = 'E' then
      let (neg, cs1) := parseSign cs
      let ds := cs1.takeWhile Char.isDigit
      let rest := cs1.dropWhile Char.isDigit
      if ds.length ≠ 0 ∧ rest = [] then
        some (if neg then -(natOfDigits ds : ℤ) else (natOfDigits ds : ℤ))
      else none
    else none

/-- The syntactic decomposition of a Python float literal: sign, integer
digits, fraction digits, decimal exponent. -/
structure FloatParts where
  neg : Bool
  ip : List Char
  fp : List Char
  exp : ℤ
  deriving DecidableEq, Repr

/-- The grammar of a finite Python float literal: surrounding whitespace is
ignored, then an optional sign, integer digits, an optional fraction and an
optional exponent; at least one digit must be present in the mantissa.
(Special spellings such as `inf`/`nan` and digit-group underscores are outside
the scrape's data and are not modelled: they parse to `none`.) -/
def parseParts (cs : List Char) : Option FloatParts :=
  let (neg, cs1) := parseSign (trimChars cs)
  let ip := cs1.takeWhile Char.isDigit
  let rest := cs1.dropWhile Char.isDigit
  match rest with
  | '.' :: cs2 =>
    let fp := cs2.takeWhile Char.isDigit
    let rest2 := cs2.dropWhile Char.isDigit
    if ip.length = 0 ∧ fp.length = 0 then none
    else (parseExp rest2).map fun e => ⟨neg, ip, fp, e⟩
  | _ =>
    if ip.length = 0 then none
    else (parseExp rest).map fun e => ⟨neg, ip, [], e⟩

/-- The numeric value of a parsed float literal, as an exact rational. -/
def partsVal (p : FloatParts) : ℚ :=
  (if p.neg then -1 else 1) *
    (((natOfDigits p.ip : ℚ) + (natOfDigits p.fp : ℚ) / (10 : ℚ) ^ p.fp.length)
      * (10 : ℚ) ^ p.exp)

/-- Python's `float()` on a finite decimal literal; `none` models the
`ValueError` it raises on a non-numeric string. -/
def pyFloat (cs : List Char) : Option ℚ :=
  (parseParts cs).map partsVal

/-- The numeric cleaning `transform` applies to each raw metric value:
`float(''.join((x.split('\n')[0]).split(',')))` — split on newline keeping the
first segment, drop the commas by splitting on them and joining, parse as a
float. A non-string value (NaN fill, or an already numeric cell) has no
`.split` method in Python (`AttributeError`), modelled as `none`. -/
def cleanMetric (v : Value) : Option ℚ :=
  match v with
  | Value.str x =>
      pyFloat (pyJoin (pySplit ',' ((pySplit '\n' x.data).headD [])))
  | _ => none

/-- Round a rational to the nearest integer, ties to even: the rounding
`np.round` applies. -/
def roundHalfEven (q : ℚ) : ℤ :=
  let f := ⌊q⌋
  let r := q - (f : ℚ)
  if r < 1 / 2 then f
  else if 1 / 2 < r then f + 1
  else if Even f then f else f + 1

/-- The rounding `np.round(x, 2)`: round to 2 decimal places, ties to even. -/
def round2 (q : ℚ) : ℚ :=
  (roundHalfEven (q * 100) : ℚ) / 100

/-- The exchange-rate mapping `transform` builds from the reference CSV:
`currency_exchange_dict['GBP' | 'EUR' | 'INR']`. -/
structure Rates where
  GBP : ℚ
  EUR : ℚ
  INR : ℚ
  deriving DecidableEq, Repr

/-- Update one binding of a row: replace the first binding of `c`, appending
a new binding when absent. -/
def setA (r : RowDict) (c : String) (v : Value) : RowDict :=
  match r with
  | [] => [(c, v)]
  | (c', v') :: rest =>
      if c' = c then (c, v) :: rest else (c', v') :: setA rest c v

/-- Appending a column name to the column list when it is not already
present: how pandas column assignment extends the schema. -/
def addCol (cols : List String) (c : String) : List String :=
  if c ∈ cols then cols else cols ++ [c]

/-- Pandas column assignment `df[c] = vals`: each row gets its value; the
column name is appended to the column list when new. (All uses have
`vals.length = df.rows.length`, as pandas requires.) -/
def setCol (df : DataFrame) (c : String) (vals : List Value) : DataFrame :=
  { columns := addCol df.columns c
    rows := List.zipWith (fun r v => setA r c v) df.rows vals }

/-- Reading a whole column: `df[c]` / `.tolist()`. -/
def colVals (df : DataFrame) (c : String) : List Value :=
  df.rows.map (fun r => getVal r c)

/-- A Python list comprehension whose body may raise: elements are produced
left to right and the first failure aborts the whole comprehension. -/
def mapOpt {α β : Type} (f : α → Option β) : List α → Option (List β)
  | [] => some []
  | a :: l =>
    match f a with
    | none => none
    | some b => (mapOpt f l).map (fun bs => b :: bs)

/-- One currency conversion step `np.round(x * rate, 2)` applied to a column
cell; a non-numeric cell would make Python's `*` fail, modelled as `none`
(never hit: the column was just overwritten with floats). -/
def convert (rate : ℚ) (v : Value) : Option Value :=
  match v with
  | Value.num q => some (Value.num (round2 (q * rate)))
  | _ => none

/-- The function `transform` from `banks_project.py`, with the rate dictionary already
loaded: clean the `MC_USD_Billion` column to floats and overwrite it in
place, then derive `MC_GBP_Billion`, `MC_EUR_Billion`, `MC_INR_Billion` by
re-reading the (now numeric) USD column and converting, in source order. -/
def transform (df : DataFrame) (rates : Rates) : Option DataFrame := do
  let usd ← mapOpt cleanMetric (colVals df "MC_USD_Billion")
  let df1 := setCol df "MC_USD_Billion" (usd.map Value.num)
  let gbp ← mapOpt (convert rates.GBP) (colVals df1 "MC_USD_Billion")
  let df2 := setCol df1 "MC_GBP_Billion" gbp
  let eur ← mapOpt (convert rates.EUR) (colVals df2 "MC_USD_Billion")
  let df3 := setCol df2 "MC_EUR_Billion" eur
  let inr ← mapOpt (convert rates.INR) (colVals df3 "MC_USD_Billion")
  pure (setCol df3 "MC_INR_Billion" inr)

/-! ## CSV sink -/

/-- CSV field quoting as `to_csv` applies it (QUOTE_MINIMAL): a field holding
a separator, quote or line break is wrapped in double quotes with inner quotes
doubled. -/
def csvQuote (s : String) : String :=
  if s.contains ',' ∨ s.contains '"' ∨ s.contains '\n' ∨ s.contains '\r' then
    "\"" ++ s.replace "\"" "\"\"" ++ "\""
  else s

/-- A deterministic rendering of a rational cell. Exact float formatting is a
pandas/Python internal; the claims about the CSV sink (idempotence, overwrite,
leading index column) do not depend on it, only on it being a function of the
value. Integral values render as Python floats do (`80000.0`). -/
def ratRepr (q : ℚ) : String :=
  if q.den = 1 then toString q.num ++ ".0"
  else toString q.num ++ "/" ++ toString q.den

/-- Rendering of one cell in the CSV output; pandas writes NaN as an empty
field. -/
def csvCell (v : Value) : String :=
  match v with
  | Value.str s => csvQuote s
  | Value.num q => ratRepr q
  | Value.nan => ""

/-- The data lines of the CSV output, numbering rows from `i`: `to_csv` with
the default `index=True` writes each row's positional index as the leading
field. -/
def rowLines (cols : List String) (i : ℕ) : List RowDict → List String
  | [] => []
  | r :: rs =>
      String.intercalate "," (toString i :: cols.map (fun c => csvCell (getVal r c)))
        :: rowLines cols (i + 1) rs

/-- All lines of the CSV output: the header (an empty field over the index
column, then the column names), followed by the data rows numbered from 0. -/
def csvLines (df : DataFrame) : List String :=
  String.intercalate "," ("" :: df.columns.map csvQuote) :: rowLines df.columns 0 df.rows

/-- The full text `df.to_csv(path)` writes: one line per row, each terminated
by a newline. -/
def toCsv (df : DataFrame) : String :=
  String.join ((csvLines df).map (fun l => l ++ "\n"))

/-- A file system, as the CSV sink sees it: a map from path to file content. -/
def Fs : Type := String → Option String

/-- The function `load_to_csv` from `banks_project.py`: `df.to_csv(output_path)` opens the
path in write mode, replacing whatever file was there with the serialized
frame. -/
def load_to_csv (fs : Fs) (df : DataFrame) (output_path : String) : Fs :=
  fun p => if p = output_path then some (toCsv df) else fs p

/-! ## Database sink and query -/

/-- The SQLite database, as the sinks see it: a map from table name to the
table's rows (`none` = no such table). -/
def Db : Type := String → Option (List RowDict)

/-- The function `load_to_db` from `banks_project.py`:
`df.to_sql(table_name, conn, if_exists='append', index=False)` — create the
table when absent, and append the frame's rows after any existing ones. -/
def load_to_db (db : Db) (df : DataFrame) (table_name : String) : Db :=
  fun t => if t = table_name then some (((db t).getD []) ++ df.rows) else db t

/-- Number of rows of a table (0 when the table does not exist). -/
def rowCount (db : Db) (t : String) : ℕ :=
  ((db t).getD []).length

/-- The driver's query statement, verbatim from the source:
`f"SELECT AVG(MC_GBP_Billion) FROM Largest_banks"` — an f-string with nothing
interpolated, so the table name is the fixed literal `Largest_banks`,
independent of the configured `table_name`. -/
def queryStatement : String := "SELECT AVG(MC_GBP_Billion) FROM Largest_banks"

/-- The table name the query statement references. -/
def queryTable : String := "Largest_banks"

/-- Numeric reading of a cell, as SQLite's `AVG` sees it (all queried cells
are floats in this pipeline). -/
def cellNum (v : Value) : ℚ :=
  match v with
  | Value.num q => q
  | _ => 0

/-- Executing the driver's diagnostic query `SELECT AVG(MC_GBP_Billion) FROM
Largest_banks` against the database: an error (`none`) when the table
`Largest_banks` does not exist (sqlite3 `OperationalError: no such table`),
otherwise the mean of the `MC_GBP_Billion` column (`AVG` of an empty table is
NULL, also `none` here). -/
def runQueryResult (db : Db) : Option ℚ :=
  match db queryTable with
  | none => none
  | some rows =>
      if rows.length = 0 then none
      else some ((rows.map (fun r => cellNum (getVal r "MC_GBP_Billion"))).sum
                  / (rows.length : ℚ))

/-! ## Driver -/

/-- One observable step of the `__main__` driver. -/
inductive Event where
  | log (msg : String)
  | callExtract
  | printFrame
  | callTransform
  | callLoadCsv
  | connectDb
  | callLoadDb
  | callRunQuery
  | closeDb
  deriving DecidableEq, Repr

/-- The straight-line event sequence of `__main__`, in source order. -/
def mainTrace : List Event :=
  [ Event.log "Preliminaries complete. Initiating ETL process"
  , Event.callExtract
  , Event.printFrame
  , Event.log "Data extraction complete. Initiating Transformation process"
  , Event.callTransform
  , Event.printFrame
  , Event.log "Data transformation complete. Initiating loading process"
  , Event.callLoadCsv
  , Event.log "Data saved to CSV file"
  , Event.connectDb
  , Event.log "SQL Connection initiated."
  , Event.callLoadDb
  , Event.log "Data loaded to Database as table. Running the query"
  , Event.callRunQuery
  , Event.log "Process Complete."
  , Event.closeDb ]

/-- The milestone messages the driver logs, in order. -/
def mainLogMessages : List String :=
  mainTrace.filterMap (fun e => match e with | Event.log m => some m | _ => none)

/-! ## The end-to-end scenario of the specification

One table row linking "Bank A" twice with metric text `"100,000\n"`, and
rates GBP=0.8, EUR=0.9, INR=80. -/

/-- The scenario's single `<tr>`: a rank cell, a name cell with two anchors
(the second reading "Bank A"), and a metric cell reading `"100,000\n"`. -/
def scenarioTr : Tr :=
  ⟨[⟨[], ["1"]⟩, ⟨[⟨["flag"]⟩, ⟨["Bank A"]⟩], []⟩, ⟨[], ["100,000\n"]⟩]⟩

/-- The scenario's page: one `<tbody>` with the single row. -/
def scenarioDoc : HtmlDoc := ⟨[⟨[scenarioTr]⟩]⟩

/-- The scenario's rate table {GBP: 0.8, EUR: 0.9, INR: 80}. -/
def scenarioRates : Rates := ⟨8 / 10, 9 / 10, 80⟩

/-- The empty database the scenario's run starts from. -/
def emptyDb : Db := fun _ => none

/-- The scenario run of the driver up to the diagnostic query, parametrized
by the configured `table_name`: extract, transform, load into the configured
table, run the query. `none` when any stage fails. -/
def scenarioQueryResult (table_name : String) : Option ℚ := do
  let df ← (extract scenarioDoc ["Name", "MC_USD_Billion"]).toOption
  let df ← transform df scenarioRates
  let db := load_to_db emptyDb df table_name
  runQueryResult db

/-! ## Auxiliary facts about the extraction stage -/

instance {ε α : Type} [DecidableEq ε] [DecidableEq α] : DecidableEq (Except ε α) :=
  fun x y =>
    match x, y with
    | Except.error a, Except.error b =>
        if h : a = b then isTrue (by rw [h]) else isFalse (by simp [h])
    | Except.ok a, Except.ok b =>
        if h : a = b then isTrue (by rw [h]) else isFalse (by simp [h])
    | Except.error _, Except.ok _ => isFalse (by simp)
    | Except.ok _, Except.error _ => isFalse (by simp)

/-- The row dictionaries the first `<tbody>`'s rows produce, in page order:
the specification-level reading of `extract`'s loop, separated from the
accumulating frame. -/
def rowsOf : List Tr → Except ExtractErr (List RowDict)
  | [] => Except.ok []
  | tr :: trs =>
    match processRow tr with
    | Except.error e => Except.error e
    | Except.ok none => rowsOf trs
    | Except.ok (some d) => (rowsOf trs).map (fun rs => d :: rs)

theorem processRow_ok_some_keys {tr : Tr} {d : RowDict}
    (h : processRow tr = Except.ok (some d)) : d.map Prod.fst = hardcodedCols := by
  simp only [processRow] at h
  split at h
  · cases h1 : pyIndex tr.tds 1 with
    | error e => rw [h1] at h; cases h
    | ok c1 =>
      rw [h1] at h
      dsimp only at h
      cases h2 : pyIndex c1.anchors 1 with
      | error e => rw [h2] at h; cases h
      | ok a =>
        rw [h2] at h
        dsimp only at h
        cases h3 : pyIndex a.contents 0 with
        | error e => rw [h3] at h; cases h
        | ok nm =>
          rw [h3] at h
          dsimp only at h
          cases h4 : pyIndex tr.tds 2 with
          | error e => rw [h4] at h; cases h
          | ok c2 =>
            rw [h4] at h
            dsimp only at h
            cases h5 : pyIndex c2.contents 0 with
            | error e => rw [h5] at h; cases h
            | ok metric =>
              rw [h5] at h
              dsimp only at h
              injection h with h
              injection h with h
              rw [← h]
              rfl
  · injection h with h; cases h

theorem rowsOf_keys : ∀ {trs : List Tr} {rs : List RowDict},
    rowsOf trs = Except.ok rs → ∀ r ∈ rs, r.map Prod.fst = hardcodedCols := by
  intro trs
  induction trs with
  | nil =>
    intro rs h r hr
    unfold rowsOf at h
    injection h with h
    subst h
    cases hr
  | cons tr trs ih =>
    intro rs h r hr
    unfold rowsOf at h
    cases hp : processRow tr with
    | error e => rw [hp] at h; cases h
    | ok o =>
      cases o with
      | none => rw [hp] at h; exact ih h r hr
      | some d =>
        rw [hp] at h
        cases hrs : rowsOf trs with
        | error e => rw [hrs] at h; cases h
        | ok rs0 =>
          rw [hrs] at h
          injection h with h
          subst h
          rcases List.mem_cons.mp hr with hr | hr
          · exact hr ▸ processRow_ok_some_keys hp
          · exact ih hrs r hr

theorem mem_concatCols {cols1 cols2 : List String} {x : String} :
    x ∈ concatCols cols1 cols2 ↔ x ∈ cols1 ∨ (x ∈ cols2 ∧ x ∉ cols1) := by
  simp [concatCols, List.mem_append, List.mem_filter]

theorem concatCols_absorb (cols l : List String) :
    concatCols (concatCols cols l) l = concatCols cols l := by
  have hmem : ∀ a ∈ l, a ∈ concatCols cols l := by
    intro a ha
    exact mem_concatCols.mpr (by by_cases hc : a ∈ cols <;> simp [hc, ha])
  have hfil : l.filter (fun c => decide (c ∉ concatCols cols l)) = [] := by
    rw [List.filter_eq_nil_iff]
    intro a ha
    simpa using hmem a ha
  calc concatCols (concatCols cols l) l
      = concatCols cols l ++ l.filter (fun c => decide (c ∉ concatCols cols l)) := rfl
    _ = concatCols cols l := by rw [hfil, List.append_nil]

theorem extractRows_eq (trs : List Tr) : ∀ df : DataFrame,
    extractRows df trs =
      (rowsOf trs).map (fun rs =>
        { columns := if rs = [] then df.columns else concatCols df.columns hardcodedCols,
          rows := df.rows ++ rs }) := by
  induction trs with
  | nil => intro df; simp [extractRows, rowsOf, Except.map]
  | cons tr trs ih =>
    intro df
    cases hp : processRow tr with
    | error e => simp [extractRows, rowsOf, hp, Except.map]
    | ok o =>
      cases o with
      | none =>
        simp only [extractRows, rowsOf, hp]
        exact ih df
      | some d =>
        have hkeys : d.map Prod.fst = hardcodedCols := processRow_ok_some_keys hp
        simp only [extractRows, rowsOf, hp]
        rw [ih (concatRow df d)]
        cases hrs : rowsOf trs with
        | error e => simp [Except.map]
        | ok rs0 =>
          have hcols : (concatRow df d).columns = concatCols df.columns hardcodedCols := by
            simp [concatRow, hkeys]
          by_cases h0 : rs0 = []
          · subst h0
            simp [Except.map, concatRow, hkeys]
          · simp [Except.map, concatRow, hkeys, concatCols_absorb, h0]

theorem extract_ok_iff {doc : HtmlDoc} {attrs : List String} {df : DataFrame} :
    extract doc attrs = Except.ok df ↔
      ∃ tb, doc.tbodys.get? 0 = some tb ∧
        ∃ rs, rowsOf tb.trs = Except.ok rs ∧
          df = { columns := if rs = [] then attrs else concatCols attrs hardcodedCols,
                 rows := rs } := by
  unfold extract pyIndex
  cases h0 : doc.tbodys.get? 0 with
  | none => simp
  | some tb =>
    dsimp only
    rw [extractRows_eq]
    constructor
    · intro h
      cases hrs : rowsOf tb.trs with
      | error e => rw [hrs] at h; cases h
      | ok rs =>
        rw [hrs] at h
        refine ⟨tb, rfl, rs, hrs, ?_⟩
        injection h with h
        exact h.symm
    · rintro ⟨tb', htb', rs, hrs, rfl⟩
      obtain rfl : tb' = tb := by injection htb' with h; exact h.symm
      rw [hrs]
      rfl

/-! ## Auxiliary facts about the transform stage -/

theorem mapOpt_length {α β : Type} (f : α → Option β) :
    ∀ {l : List α} {l' : List β}, mapOpt f l = some l' → l'.length = l.length := by
  intro l
  induction l with
  | nil => intro l' h; injection h with h; subst h; rfl
  | cons a l ih =>
    intro l' h
    unfold mapOpt at h
    cases hf : f a with
    | none => rw [hf] at h; cases h
    | some b =>
      rw [hf] at h
      cases hm : mapOpt f l with
      | none => rw [hm] at h; cases h
      | some bs =>
        rw [hm] at h
        injection h with h
        subst h
        simp [ih hm]

theorem mapOpt_get? {α β : Type} (f : α → Option β) :
    ∀ {l : List α} {l' : List β}, mapOpt f l = some l' →
      ∀ i a, l.get? i = some a → ∃ b, f a = some b ∧ l'.get? i = some b := by
  intro l
  induction l with
  | nil => intro l' _ i a ha; cases ha
  | cons x l ih =>
    intro l' h i a ha
    unfold mapOpt at h
    cases hf : f x with
    | none => rw [hf] at h; cases h
    | some b =>
      rw [hf] at h
      cases hm : mapOpt f l with
      | none => rw [hm] at h; cases h
      | some bs =>
        rw [hm] at h
        injection h with h
        subst h
        cases i with
        | zero =>
          injection ha with ha
          subst ha
          exact ⟨b, hf, rfl⟩
        | succ i => exact ih hm i a ha

theorem mapOpt_convert_num (rate : ℚ) :
    ∀ l : List ℚ, mapOpt (convert rate) (l.map Value.num) =
      some (l.map fun q => Value.num (round2 (q * rate))) := by
  intro l
  induction l with
  | nil => rfl
  | cons q l ih => simp [mapOpt, convert, ih]

theorem lookup_setA_self (r : RowDict) (c : String) (v : Value) :
    lookupV (setA r c v) c = some v := by
  induction r with
  | nil => simp [setA, lookupV]
  | cons p r ih =>
    rcases p with ⟨c0, v0⟩
    by_cases h : c0 = c
    · simp [setA, h, lookupV]
    · simp [setA, h, lookupV, ih]

theorem lookup_setA_ne (r : RowDict) {c c' : String} (v : Value) (h : c' ≠ c) :
    lookupV (setA r c v) c' = lookupV r c' := by
  induction r with
  | nil => simp [setA, lookupV, Ne.symm h]
  | cons p r ih =>
    rcases p with ⟨c0, v0⟩
    by_cases hp : c0 = c
    · subst hp
      simp [setA, lookupV, Ne.symm h]
    · by_cases hc' : c0 = c'
      · simp [setA, hp, lookupV, hc', h]
      · simp [setA, hp, lookupV, hc', ih]

theorem getVal_setA_self (r : RowDict) (c : String) (v : Value) :
    getVal (setA r c v) c = v := by
  simp [getVal, lookup_setA_self]

theorem getVal_setA_ne (r : RowDict) {c c' : String} (v : Value) (h : c' ≠ c) :
    getVal (setA r c v) c' = getVal r c' := by
  simp [getVal, lookup_setA_ne r v h]

theorem zipWith_get?_some {α β γ : Type} (f : α → β → γ) :
    ∀ {l1 : List α} {l2 : List β} {i : ℕ} {a : α} {b : β},
      l1.get? i = some a → l2.get? i = some b →
        (List.zipWith f l1 l2).get? i = some (f a b) := by
  intro l1
  induction l1 with
  | nil => intro l2 i a b ha; cases ha
  | cons x l1 ih =>
    intro l2 i a b ha hb
    cases l2 with
    | nil => cases hb
    | cons y l2 =>
      cases i with
      | zero =>
        injection ha with ha
        injection hb with hb
        subst ha; subst hb
        rfl
      | succ i => exact ih ha hb

theorem setCol_rows_length {df : DataFrame} {c : String} {vals : List Value}
    (h : vals.length = df.rows.length) :
    (setCol df c vals).rows.length = df.rows.length := by
  simp [setCol, h]

theorem setCol_rows_get? {df : DataFrame} {c : String} {vals : List Value}
    {i : ℕ} {r : RowDict} {v : Value}
    (hr : df.rows.get? i = some r) (hv : vals.get? i = some v) :
    (setCol df c vals).rows.get? i = some (setA r c v) := by
  simp only [setCol]
  exact zipWith_get?_some _ hr hv

theorem colVals_length (df : DataFrame) (c : String) :
    (colVals df c).length = df.rows.length := by
  simp [colVals]

theorem map_getVal_zipWith_self (c : String) :
    ∀ (rows : List RowDict) (vals : List Value), vals.length = rows.length →
      List.map (fun r => getVal r c) (List.zipWith (fun r v => setA r c v) rows vals)
        = vals := by
  intro rows
  induction rows with
  | nil =>
    intro vals h
    cases vals with
    | nil => rfl
    | cons v vs => cases h
  | cons r rows ih =>
    intro vals h
    cases vals with
    | nil => cases h
    | cons v vs =>
      simp only [List.zipWith_cons_cons, List.map_cons, getVal_setA_self]
      rw [ih vs (by simpa using h)]

theorem map_getVal_zipWith_ne {c c' : String} (hne : c' ≠ c) :
    ∀ (rows : List RowDict) (vals : List Value), vals.length = rows.length →
      List.map (fun r => getVal r c') (List.zipWith (fun r v => setA r c v) rows vals)
        = List.map (fun r => getVal r c') rows := by
  intro rows
  induction rows with
  | nil => intro vals _; rfl
  | cons r rows ih =>
    intro vals h
    cases vals with
    | nil => cases h
    | cons v vs =>
      simp only [List.zipWith_cons_cons, List.map_cons, getVal_setA_ne r v hne]
      rw [ih vs (by simpa using h)]

theorem colVals_setCol_self {df : DataFrame} {c : String} {vals : List Value}
    (h : vals.length = df.rows.length) :
    colVals (setCol df c vals) c = vals := by
  simp only [colVals, setCol]
  exact map_getVal_zipWith_self c df.rows vals h

theorem colVals_setCol_ne {df : DataFrame} {c c' : String} {vals : List Value}
    (hne : c' ≠ c) (h : vals.length = df.rows.length) :
    colVals (setCol df c vals) c' = colVals df c' := by
  simp only [colVals, setCol]
  exact map_getVal_zipWith_ne hne df.rows vals h

/-- The frame `transform` returns once the USD column has cleaned to the
rational list `usd`: USD overwritten in place, then the three converted
columns in order. -/
def transformedFrame (df : DataFrame) (rates : Rates) (usd : List ℚ) : DataFrame :=
  let df1 := setCol df "MC_USD_Billion" (usd.map Value.num)
  let df2 := setCol df1 "MC_GBP_Billion"
    (usd.map fun q => Value.num (round2 (q * rates.GBP)))
  let df3 := setCol df2 "MC_EUR_Billion"
    (usd.map fun q => Value.num (round2 (q * rates.EUR)))
  setCol df3 "MC_INR_Billion" (usd.map fun q => Value.num (round2 (q * rates.INR)))

theorem concatCols_nil (cols : List String) : concatCols cols [] = cols := by
  simp [concatCols]

theorem addCol_concatCols (cols : List String) {l : List String} {x : String}
    (hx : x ∉ l) :
    concatCols cols (l ++ [x]) = addCol (concatCols cols l) x := by
  by_cases hc : x ∈ cols
  · have hmem : x ∈ concatCols cols l := mem_concatCols.mpr (Or.inl hc)
    simp [concatCols, addCol, List.filter_append, hc, hmem, hx]
  · have hmem : x ∉ concatCols cols l := by
      intro hm
      rcases mem_concatCols.mp hm with h | ⟨h1, _⟩
      · exact hc h
      · exact hx h1
    simp [concatCols, addCol, List.filter_append, hc, hmem, hx]

/-- The four metric columns `transform` assigns, in assignment order. -/
def metricCols : List String :=
  ["MC_USD_Billion", "MC_GBP_Billion", "MC_EUR_Billion", "MC_INR_Billion"]

theorem concatCols_metricCols (cols : List String) :
    concatCols cols metricCols =
      addCol (addCol (addCol (addCol cols "MC_USD_Billion") "MC_GBP_Billion")
        "MC_EUR_Billion") "MC_INR_Billion" := by
  have e4 : metricCols
      = ["MC_USD_Billion", "MC_GBP_Billion", "MC_EUR_Billion"] ++ ["MC_INR_Billion"] := rfl
  have e3 : (["MC_USD_Billion", "MC_GBP_Billion", "MC_EUR_Billion"] : List String)
      = ["MC_USD_Billion", "MC_GBP_Billion"] ++ ["MC_EUR_Billion"] := rfl
  have e2 : (["MC_USD_Billion", "MC_GBP_Billion"] : List String)
      = ["MC_USD_Billion"] ++ ["MC_GBP_Billion"] := rfl
  have e1 : (["MC_USD_Billion"] : List String) = [] ++ ["MC_USD_Billion"] := rfl
  rw [e4, addCol_concatCols cols (by decide),
      e3, addCol_concatCols cols (by decide),
      e2, addCol_concatCols cols (by decide),
      e1, addCol_concatCols cols (by decide),
      concatCols_nil]

theorem transformedFrame_columns (df : DataFrame) (rates : Rates) (usd : List ℚ) :
    (transformedFrame df rates usd).columns = concatCols df.columns metricCols := by
  rw [concatCols_metricCols]
  rfl

theorem setCol_rows_length_min (df : DataFrame) (c : String) (vals : List Value) :
    (setCol df c vals).rows.length = min df.rows.length vals.length := by
  simp [setCol]

theorem transformedFrame_rows_length (df : DataFrame) (rates : Rates)
    {usd : List ℚ} (h : usd.length = df.rows.length) :
    (transformedFrame df rates usd).rows.length = df.rows.length := by
  simp [transformedFrame, setCol_rows_length_min, h]

theorem transform_eq (df : DataFrame) (rates : Rates) :
    transform df rates =
      (mapOpt cleanMetric (colVals df "MC_USD_Billion")).map
        (transformedFrame df rates) := by
  unfold transform
  cases hm : mapOpt cleanMetric (colVals df "MC_USD_Billion") with
  | none => rfl
  | some usd =>
    have hlen : usd.length = df.rows.length := by
      rw [mapOpt_length _ hm, colVals_length]
    have hlen1 : (usd.map Value.num).length = df.rows.length := by simpa using hlen
    have h1 : colVals (setCol df "MC_USD_Billion" (usd.map Value.num))
        "MC_USD_Billion" = usd.map Value.num := colVals_setCol_self hlen1
    simp only [Option.map_some', bind, Option.bind, h1, mapOpt_convert_num]
    have hrows1 : (setCol df "MC_USD_Billion" (usd.map Value.num)).rows.length
        = df.rows.length := setCol_rows_length hlen1
    have h2 : colVals (setCol (setCol df "MC_USD_Billion" (usd.map Value.num))
        "MC_GBP_Billion" (usd.map fun q => Value.num (round2 (q * rates.GBP))))
        "MC_USD_Billion" = usd.map Value.num := by
      rw [colVals_setCol_ne (by decide) (by simpa using hlen.trans hrows1.symm), h1]
    simp only [h2, mapOpt_convert_num]
    have hrows2 : (setCol (setCol df "MC_USD_Billion" (usd.map Value.num))
        "MC_GBP_Billion" (usd.map fun q => Value.num (round2 (q * rates.GBP)))).rows.length
        = df.rows.length := by
      rw [setCol_rows_length (by simpa using hlen.trans hrows1.symm), hrows1]
    have h3 : colVals (setCol (setCol (setCol df "MC_USD_Billion" (usd.map Value.num))
        "MC_GBP_Billion" (usd.map fun q => Value.num (round2 (q * rates.GBP))))
        "MC_EUR_Billion" (usd.map fun q => Value.num (round2 (q * rates.EUR))))
        "MC_USD_Billion" = usd.map Value.num := by
      rw [colVals_setCol_ne (by decide) (by simpa using hlen.trans hrows2.symm), h2]
    simp only [h3, mapOpt_convert_num]
    rfl

/-! ## Concrete evaluations on the specification's end-to-end scenario -/

/-- The frame `extract` produces on the scenario page. -/
def scenarioExtracted : DataFrame :=
  { columns := ["Name", "MC_USD_Billion"]
    rows := [[("Name", Value.str "Bank A"), ("MC_USD_Billion", Value.str "100,000\n")]] }

/-- The frame `transform` produces from `scenarioExtracted` under the
scenario rates. -/
def scenarioTransformed : DataFrame :=
  { columns := ["Name", "MC_USD_Billion", "MC_GBP_Billion", "MC_EUR_Billion",
                "MC_INR_Billion"]
    rows := [[("Name", Value.str "Bank A"), ("MC_USD_Billion", Value.num 100000),
              ("MC_GBP_Billion", Value.num 80000), ("MC_EUR_Billion", Value.num 90000),
              ("MC_INR_Billion", Value.num 8000000)]] }

theorem scenario_extract :
    extract scenarioDoc ["Name", "MC_USD_Billion"] = Except.ok scenarioExtracted := by
  decide

theorem scenario_clean : cleanMetric (Value.str "100,000\n") = some 100000 := by
  have h : parseParts (pyJoin (pySplit ',' ((pySplit '\n' "100,000\n".data).headD [])))
      = some ⟨false, ['1', '0', '0', '0', '0', '0'], [], 0⟩ := by decide
  have h1 : natOfDigits ['1', '0', '0', '0', '0', '0'] = 100000 := by decide
  have h0 : natOfDigits [] = 0 := rfl
  simp only [cleanMetric, pyFloat]
  rw [h]
  norm_num [partsVal, h1, h0]

theorem scenario_colVals :
    colVals scenarioExtracted "MC_USD_Billion" = [Value.str "100,000\n"] := by
  decide

theorem scenario_mapOpt :
    mapOpt cleanMetric (colVals scenarioExtracted "MC_USD_Billion")
      = some [(100000 : ℚ)] := by
  rw [scenario_colVals]
  simp [mapOpt, scenario_clean]

theorem round2_gbp : round2 ((100000 : ℚ) * (8 / 10)) = 80000 := by
  norm_num [round2, roundHalfEven]

theorem round2_eur : round2 ((100000 : ℚ) * (9 / 10)) = 90000 := by
  norm_num [round2, roundHalfEven]

theorem round2_inr : round2 ((100000 : ℚ) * 80) = 8000000 := by
  norm_num [round2, roundHalfEven]

theorem scenario_transform :
    transform scenarioExtracted scenarioRates = some scenarioTransformed := by
  rw [transform_eq, scenario_mapOpt]
  simp only [Option.map_some', Option.some.injEq]
  simp only [transformedFrame, scenarioRates]
  simp [setCol, setA, addCol, scenarioExtracted, scenarioTransformed]
  exact ⟨round2_gbp, round2_eur, round2_inr⟩

/-! ## Characterization of the split-based cleaning -/

theorem pySplit_ne_nil (sep : Char) : ∀ cs : List Char, pySplit sep cs ≠ [] := by
  intro cs
  cases cs with
  | nil => simp [pySplit]
  | cons c cs =>
    by_cases hc : c = sep
    · simp [pySplit, hc]
    · simp only [pySplit, if_neg hc]
      cases pySplit sep cs <;> simp

theorem pySplit_headD (sep : Char) :
    ∀ cs : List Char, (pySplit sep cs).headD [] = cs.takeWhile (fun c => c != sep) := by
  intro cs
  induction cs with
  | nil => rfl
  | cons c cs ih =>
    by_cases hc : c = sep
    · simp [pySplit, hc, List.takeWhile_cons]
    · obtain ⟨g, gs, hgg⟩ : ∃ g gs, pySplit sep cs = g :: gs := by
        cases h : pySplit sep cs with
        | nil => exact absurd h (pySplit_ne_nil sep cs)
        | cons g gs => exact ⟨g, gs, rfl⟩
      have hg : g = cs.takeWhile (fun c => c != sep) := by
        rw [← ih, hgg]; rfl
      simp [pySplit, hc, hgg, List.takeWhile_cons, hg]

theorem pyJoin_pySplit (sep : Char) :
    ∀ cs : List Char, pyJoin (pySplit sep cs) = cs.filter (fun c => c != sep) := by
  intro cs
  induction cs with
  | nil => rfl
  | cons c cs ih =>
    by_cases hc : c = sep
    · simpa [pySplit, pyJoin, hc, List.filter_cons] using ih
    · obtain ⟨g, gs, hgg⟩ : ∃ g gs, pySplit sep cs = g :: gs := by
        cases h : pySplit sep cs with
        | nil => exact absurd h (pySplit_ne_nil sep cs)
        | cons g gs => exact ⟨g, gs, rfl⟩
      have hflat : g ++ gs.flatten = cs.filter (fun c => c != sep) := by
        rw [← ih, hgg]; rfl
      simp [pySplit, pyJoin, hc, hgg, List.filter_cons, hflat]

theorem rowLines_get? (cols : List String) :
    ∀ (rows : List RowDict) (j i : ℕ) (r : RowDict), rows.get? i = some r →
      (rowLines cols j rows).get? i =
        some (String.intercalate ","
          (toString (j + i) :: cols.map fun c => csvCell (getVal r c))) := by
  intro rows
  induction rows with
  | nil => intro j i r h; cases h
  | cons r0 rows ih =>
    intro j i r h
    cases i with
    | zero =>
      injection h with h
      subst h
      rfl
    | succ i =>
      have harith : j + 1 + i = j + (i + 1) := by omega
      have := ih (j + 1) i r h
      rw [harith] at this
      simpa [rowLines] using this

/-- An empty file system, for concrete instantiations. -/
def emptyFs : Fs := fun _ => none

/-! ## The claims -/

/-- C3 counterexample: the driver does not log eight milestone messages —
`mainLogMessages` has exactly seven entries, so its length is not 8. -/
theorem c3_counterexample : mainLogMessages.length = 7 ∧ mainLogMessages.length ≠ 8 := by
  decide

/-- C3 (amended): the driver logs exactly SEVEN milestone messages,
interleaved between the stage calls in the fixed source order: preliminaries,
extraction done, transform done, CSV saved, DB connection opened, DB load
done / query running, process complete. -/
theorem c3_log_milestones :
    mainLogMessages.length = 7 ∧
    mainLogMessages =
      ["Preliminaries complete. Initiating ETL process",
       "Data extraction complete. Initiating Transformation process",
       "Data transformation complete. Initiating loading process",
       "Data saved to CSV file",
       "SQL Connection initiated.",
       "Data loaded to Database as table. Running the query",
       "Process Complete."] ∧
    mainTrace =
      [Event.log "Preliminaries complete. Initiating ETL process",
       Event.callExtract, Event.printFrame,
       Event.log "Data extraction complete. Initiating Transformation process",
       Event.callTransform, Event.printFrame,
       Event.log "Data transformation complete. Initiating loading process",
       Event.callLoadCsv,
       Event.log "Data saved to CSV file",
       Event.connectDb,
       Event.log "SQL Connection initiated.",
       Event.callLoadDb,
       Event.log "Data loaded to Database as table. Running the query",
       Event.callRunQuery,
       Event.log "Process Complete.",
       Event.closeDb] := by
  decide

/-- C4: the numeric cleaning takes the first newline-separated segment of the
raw string, removes the commas, and parses the result as a float; in
particular `"1,234.5\nfootnote"` cleans to `1234.5` (= 2469/2), and cleaning
fails (`none`, Python `ValueError`) when the cleaned string is not numeric,
as on `"1,2x3"`. -/
theorem c4_numeric_cleaning :
    (∀ s : String, cleanMetric (Value.str s) =
      pyFloat ((s.data.takeWhile (fun c => c != '\n')).filter (fun c => c != ','))) ∧
    cleanMetric (Value.str "1,234.5\nfootnote") = some (2469 / 2) ∧
    cleanMetric (Value.str "1,2x3") = none := by
  refine ⟨?_, ?_, ?_⟩
  · intro s
    show pyFloat (pyJoin (pySplit ',' ((pySplit '\n' s.data).headD []))) = _
    rw [pySplit_headD, pyJoin_pySplit]
  · have h : parseParts (pyJoin (pySplit ','
        ((pySplit '\n' "1,234.5\nfootnote".data).headD [])))
        = some ⟨false, ['1', '2', '3', '4'], ['5'], 0⟩ := by decide
    have h1 : natOfDigits ['1', '2', '3', '4'] = 1234 := by decide
    have h2 : natOfDigits ['5'] = 5 := by decide
    simp only [cleanMetric, pyFloat]
    rw [h]
    norm_num [partsVal, h1, h2]
  · have h : parseParts (pyJoin (pySplit ',' ((pySplit '\n' "1,2x3".data).headD [])))
        = none := by decide
    simp only [cleanMetric, pyFloat]
    rw [h]
    rfl

/-- C8: the CSV sink is idempotent and overwriting — writing the same frame
twice to the same path leaves the file system exactly as writing it once, the
file at the path holds exactly the serialization of the frame (replacing any
previous content), and each data line of the serialization begins with the
row's positional index. -/
theorem c8_csv_sink (fs : Fs) (df : DataFrame) (path : String) :
    load_to_csv (load_to_csv fs df path) df path = load_to_csv fs df path ∧
    load_to_csv fs df path path = some (toCsv df) ∧
    ∀ i r, df.rows.get? i = some r →
      (csvLines df).get? (i + 1) =
        some (String.intercalate ","
          (toString i :: df.columns.map fun c => csvCell (getVal r c))) := by
  refine ⟨?_, ?_, ?_⟩
  · funext p
    by_cases h : p = path <;> simp [load_to_csv, h]
  · simp [load_to_csv]
  · intro i r h
    have := rowLines_get? df.columns df.rows 0 i r h
    simpa [csvLines] using this

/-- C8 witness: the theorem instantiated on the scenario frame written to an
empty file system, reading off the indexed data line of row 0. -/
theorem c8_csv_sink_witness :
    (csvLines scenarioTransformed).get? 1 =
      some (String.intercalate ","
        (toString 0 :: scenarioTransformed.columns.map
          fun c => csvCell (getVal (scenarioTransformed.rows.headD []) c))) :=
  (c8_csv_sink emptyFs scenarioTransformed "./Largest_banks_data.csv").2.2 0 _ rfl

/-- C9: the DB sink appends and never drops — loading a frame leaves the
target table holding its previous rows followed by the frame's rows, leaves
every other table unchanged, and loading the same frame twice adds its row
count twice; when the table did not exist before, the second load exactly
doubles the table's row count. -/
theorem c9_db_sink (db : Db) (df : DataFrame) (t : String) :
    load_to_db db df t t = some (((db t).getD []) ++ df.rows) ∧
    (∀ t', t' ≠ t → load_to_db db df t t' = db t') ∧
    rowCount (load_to_db (load_to_db db df t) df t) t
      = rowCount db t + 2 * df.rows.length ∧
    (db t = none →
      rowCount (load_to_db (load_to_db db df t) df t) t
        = 2 * rowCount (load_to_db db df t) t) := by
  refine ⟨?_, ?_, ?_, ?_⟩
  · simp [load_to_db]
  · intro t' h
    simp [load_to_db, h]
  · simp [load_to_db, rowCount]
    omega
  · intro h
    simp [load_to_db, rowCount, h]
    omega

/-- C9 witness: the theorem instantiated on the empty database and the
scenario frame — the second load of the one-row frame doubles the table's
row count. -/
theorem c9_db_sink_witness :
    rowCount (load_to_db (load_to_db emptyDb scenarioTransformed "Largest_banks")
        scenarioTransformed "Largest_banks") "Largest_banks"
      = 2 * rowCount (load_to_db emptyDb scenarioTransformed "Largest_banks")
          "Largest_banks" :=
  (c9_db_sink emptyDb scenarioTransformed "Largest_banks").2.2.2 rfl

/-- The row C10 uses with a single `<td>` cell. -/
def oneTdTr : Tr := ⟨[⟨[], ["x"]⟩]⟩

/-- The row C10 uses with two `<td>` cells, the second holding two anchors. -/
def twoTdTr : Tr := ⟨[⟨[], ["1"]⟩, ⟨[⟨["a"]⟩, ⟨["B"]⟩], []⟩]⟩

/-- C10: the row-inclusion guard only requires one `<td>`, so a row with one
cell (accepted by the guard) makes `extract` fail with an `IndexError` at
cell index 1, and a row with two cells fails at cell index 2 — neither row is
skipped. -/
theorem c10_guard_oob :
    oneTdTr.tds.length = 1 ∧
    extract ⟨[⟨[oneTdTr]⟩]⟩ hardcodedCols = Except.error ExtractErr.indexError ∧
    twoTdTr.tds.length = 2 ∧
    extract ⟨[⟨[twoTdTr]⟩]⟩ hardcodedCols = Except.error ExtractErr.indexError := by
  decide

/-- C1 counterexample: asked for columns `["A", "B"]` on the scenario page,
`extract` returns a frame whose columns are NOT the given names: the row data
comes in under the hardcoded keys `Name` and `MC_USD_Billion`, which
`pd.concat` appends to the requested columns. -/
theorem c1_counterexample :
    extract scenarioDoc ["A", "B"] =
      Except.ok { columns := ["A", "B", "Name", "MC_USD_Billion"],
                  rows := scenarioExtracted.rows } ∧
    (["A", "B", "Name", "MC_USD_Billion"] : List String) ≠ ["A", "B"] := by
  constructor
  · decide
  · decide

/-- C1 (amended): a successful `extract` is populated from the rows of the
first `<tbody>`, but under the HARDCODED column names `Name` and
`MC_USD_Billion`; its column list is the given attribute list only when no
row was appended, and otherwise is the given list followed by whichever
hardcoded names it is missing. -/
theorem c1_extract_columns (doc : HtmlDoc) (attrs : List String) (df : DataFrame)
    (h : extract doc attrs = Except.ok df) :
    ∃ tb, doc.tbodys.get? 0 = some tb ∧
      rowsOf tb.trs = Except.ok df.rows ∧
      df.columns = (if df.rows = [] then attrs else concatCols attrs hardcodedCols) ∧
      ∀ r ∈ df.rows, r.map Prod.fst = hardcodedCols := by
  rcases extract_ok_iff.mp h with ⟨tb, htb, rs, hrs, hdf⟩
  subst hdf
  exact ⟨tb, htb, hrs, rfl, fun r hr => rowsOf_keys hrs r hr⟩

/-- C1 witness: the amended theorem instantiated on the scenario page with
the standard attribute list. -/
theorem c1_extract_columns_witness :
    ∃ tb, scenarioDoc.tbodys.get? 0 = some tb ∧
      rowsOf tb.trs = Except.ok scenarioExtracted.rows ∧
      scenarioExtracted.columns =
        (if scenarioExtracted.rows = [] then ["Name", "MC_USD_Billion"]
         else concatCols ["Name", "MC_USD_Billion"] hardcodedCols) ∧
      ∀ r ∈ scenarioExtracted.rows, r.map Prod.fst = hardcodedCols :=
  c1_extract_columns scenarioDoc ["Name", "MC_USD_Billion"] scenarioExtracted
    scenario_extract

/-- C2 counterexample: with the configuration naming the table `Foo`, the
driver still queries the hardcoded table `Largest_banks`, so the scenario
run's query result is an error (`none`), not 80000.0 — the diagnostic query
is not over the table named by the configuration. -/
theorem c2_counterexample :
    scenarioQueryResult "Foo" = none ∧ queryTable ≠ "Foo" := by
  constructor
  · simp [scenarioQueryResult, scenario_extract, scenario_transform, Except.toOption,
      runQueryResult, load_to_db, emptyDb, queryTable]
  · decide

/-- C2 (amended): the diagnostic query is the hardcoded statement
`SELECT AVG(MC_GBP_Billion) FROM Largest_banks`; in the scenario run, when
the configured table name is the hardcoded `Largest_banks`, the printed query
result is 80000.0. -/
theorem c2_scenario_query :
    queryStatement = "SELECT AVG(MC_GBP_Billion) FROM Largest_banks" ∧
    scenarioQueryResult "Largest_banks" = some 80000 := by
  constructor
  · rfl
  · simp only [scenarioQueryResult, scenario_extract, Except.toOption, bind,
      Option.bind]
    rw [scenario_transform]
    simp [runQueryResult, load_to_db, emptyDb, queryTable, scenarioTransformed,
      getVal, lookupV, cellNum]

theorem transform_some_elim {df : DataFrame} {rates : Rates} {out : DataFrame}
    (h : transform df rates = some out) :
    ∃ usd, mapOpt cleanMetric (colVals df "MC_USD_Billion") = some usd ∧
      out = transformedFrame df rates usd := by
  rw [transform_eq] at h
  cases hm : mapOpt cleanMetric (colVals df "MC_USD_Billion") with
  | none => rw [hm] at h; cases h
  | some usd =>
    rw [hm] at h
    simp only [Option.map_some'] at h
    injection h with h
    exact ⟨usd, rfl, h.symm⟩

/-- The row a successful `transform` produces from an input row whose metric
cleaned to `q`: USD overwritten, the three conversions appended. -/
def convRow (r : RowDict) (rates : Rates) (q : ℚ) : RowDict :=
  setA (setA (setA (setA r "MC_USD_Billion" (Value.num q))
    "MC_GBP_Billion" (Value.num (round2 (q * rates.GBP))))
    "MC_EUR_Billion" (Value.num (round2 (q * rates.EUR))))
    "MC_INR_Billion" (Value.num (round2 (q * rates.INR)))

theorem convRow_usd (r : RowDict) (rates : Rates) (q : ℚ) :
    getVal (convRow r rates q) "MC_USD_Billion" = Value.num q := by
  unfold convRow
  rw [getVal_setA_ne _ _ (by decide : ("MC_USD_Billion" : String) ≠ "MC_INR_Billion"),
      getVal_setA_ne _ _ (by decide : ("MC_USD_Billion" : String) ≠ "MC_EUR_Billion"),
      getVal_setA_ne _ _ (by decide : ("MC_USD_Billion" : String) ≠ "MC_GBP_Billion"),
      getVal_setA_self]

theorem convRow_gbp (r : RowDict) (rates : Rates) (q : ℚ) :
    getVal (convRow r rates q) "MC_GBP_Billion"
      = Value.num (round2 (q * rates.GBP)) := by
  unfold convRow
  rw [getVal_setA_ne _ _ (by decide : ("MC_GBP_Billion" : String) ≠ "MC_INR_Billion"),
      getVal_setA_ne _ _ (by decide : ("MC_GBP_Billion" : String) ≠ "MC_EUR_Billion"),
      getVal_setA_self]

theorem convRow_eur (r : RowDict) (rates : Rates) (q : ℚ) :
    getVal (convRow r rates q) "MC_EUR_Billion"
      = Value.num (round2 (q * rates.EUR)) := by
  unfold convRow
  rw [getVal_setA_ne _ _ (by decide : ("MC_EUR_Billion" : String) ≠ "MC_INR_Billion"),
      getVal_setA_self]

theorem convRow_inr (r : RowDict) (rates : Rates) (q : ℚ) :
    getVal (convRow r rates q) "MC_INR_Billion"
      = Value.num (round2 (q * rates.INR)) := by
  unfold convRow
  rw [getVal_setA_self]

theorem convRow_other (r : RowDict) (rates : Rates) (q : ℚ) {c : String}
    (hc : c ∉ metricCols) : getVal (convRow r rates q) c = getVal r c := by
  simp only [metricCols, List.mem_cons, List.not_mem_nil, or_false] at hc
  push_neg at hc
  obtain ⟨h1, h2, h3, h4⟩ := hc
  unfold convRow
  rw [getVal_setA_ne _ _ h4, getVal_setA_ne _ _ h3, getVal_setA_ne _ _ h2,
      getVal_setA_ne _ _ h1]

theorem transformedFrame_rows_get? {df : DataFrame} {rates : Rates}
    {usd : List ℚ} {i : ℕ} {r : RowDict} {q : ℚ}
    (hr : df.rows.get? i = some r) (hqi : usd.get? i = some q) :
    (transformedFrame df rates usd).rows.get? i = some (convRow r rates q) := by
  have h1 : (usd.map Value.num).get? i = some (Value.num q) := by
    rw [List.get?_map, hqi]; rfl
  have hr1 := @setCol_rows_get? df "MC_USD_Billion" (usd.map Value.num) i r
    (Value.num q) hr h1
  have h2 : (usd.map fun v => Value.num (round2 (v * rates.GBP))).get? i
      = some (Value.num (round2 (q * rates.GBP))) := by
    rw [List.get?_map, hqi]; rfl
  have hr2 := @setCol_rows_get? (setCol df "MC_USD_Billion" (usd.map Value.num))
    "MC_GBP_Billion" (usd.map fun v => Value.num (round2 (v * rates.GBP))) i
    (setA r "MC_USD_Billion" (Value.num q)) (Value.num (round2 (q * rates.GBP)))
    hr1 h2
  have h3 : (usd.map fun v => Value.num (round2 (v * rates.EUR))).get? i
      = some (Value.num (round2 (q * rates.EUR))) := by
    rw [List.get?_map, hqi]; rfl
  have hr3 := @setCol_rows_get?
    (setCol (setCol df "MC_USD_Billion" (usd.map Value.num)) "MC_GBP_Billion"
      (usd.map fun v => Value.num (round2 (v * rates.GBP))))
    "MC_EUR_Billion" (usd.map fun v => Value.num (round2 (v * rates.EUR))) i
    (setA (setA r "MC_USD_Billion" (Value.num q)) "MC_GBP_Billion"
      (Value.num (round2 (q * rates.GBP))))
    (Value.num (round2 (q * rates.EUR))) hr2 h3
  have h4 : (usd.map fun v => Value.num (round2 (v * rates.INR))).get? i
      = some (Value.num (round2 (q * rates.INR))) := by
    rw [List.get?_map, hqi]; rfl
  have hr4 := @setCol_rows_get?
    (setCol (setCol (setCol df "MC_USD_Billion" (usd.map Value.num))
        "MC_GBP_Billion" (usd.map fun v => Value.num (round2 (v * rates.GBP))))
      "MC_EUR_Billion" (usd.map fun v => Value.num (round2 (v * rates.EUR))))
    "MC_INR_Billion" (usd.map fun v => Value.num (round2 (v * rates.INR))) i
    (setA (setA (setA r "MC_USD_Billion" (Value.num q)) "MC_GBP_Billion"
        (Value.num (round2 (q * rates.GBP)))) "MC_EUR_Billion"
      (Value.num (round2 (q * rates.EUR))))
    (Value.num (round2 (q * rates.INR))) hr3 h4
  simpa only [transformedFrame, convRow] using hr4

/-- C5: for every input frame, rate table and successful transform, each
row's three derived values are the cleaned USD value multiplied by the
corresponding rate and rounded to two decimals (ties to even). -/
theorem c5_conversion (df : DataFrame) (rates : Rates) (out : DataFrame)
    (h : transform df rates = some out) :
    ∀ i r, df.rows.get? i = some r →
      ∃ q r', cleanMetric (getVal r "MC_USD_Billion") = some q ∧
        out.rows.get? i = some r' ∧
        getVal r' "MC_GBP_Billion" = Value.num (round2 (q * rates.GBP)) ∧
        getVal r' "MC_EUR_Billion" = Value.num (round2 (q * rates.EUR)) ∧
        getVal r' "MC_INR_Billion" = Value.num (round2 (q * rates.INR)) := by
  obtain ⟨usd, hm, rfl⟩ := transform_some_elim h
  intro i r hr
  have hcol : (colVals df "MC_USD_Billion").get? i
      = some (getVal r "MC_USD_Billion") := by
    simp only [colVals]
    rw [List.get?_map, hr]
    rfl
  obtain ⟨q, hq, hqi⟩ := mapOpt_get? cleanMetric hm i _ hcol
  exact ⟨q, convRow r rates q, hq, transformedFrame_rows_get? hr hqi,
    convRow_gbp r rates q, convRow_eur r rates q, convRow_inr r rates q⟩

/-- C5 witness: the conversion law instantiated on the scenario row with the
rate table GBP=0.8, EUR=0.9, INR=80. -/
theorem c5_conversion_witness :
    ∃ q r', cleanMetric (getVal
        [("Name", Value.str "Bank A"), ("MC_USD_Billion", Value.str "100,000\n")]
        "MC_USD_Billion") = some q ∧
      scenarioTransformed.rows.get? 0 = some r' ∧
      getVal r' "MC_GBP_Billion" = Value.num (round2 (q * scenarioRates.GBP)) ∧
      getVal r' "MC_EUR_Billion" = Value.num (round2 (q * scenarioRates.EUR)) ∧
      getVal r' "MC_INR_Billion" = Value.num (round2 (q * scenarioRates.INR)) :=
  c5_conversion scenarioExtracted scenarioRates scenarioTransformed
    scenario_transform 0
    [("Name", Value.str "Bank A"), ("MC_USD_Billion", Value.str "100,000\n")] rfl

/-- C6: a row whose name cell (cell index 1) holds fewer than two anchors
makes `processRow` raise an `IndexError` (at `bank_name[1]`), and `extract`
on a page holding that row fails with that `IndexError` instead of skipping
the row. -/
theorem c6_missing_anchor (tr : Tr) (c : Td) (attrs : List String)
    (h1 : tr.tds.get? 1 = some c) (h2 : c.anchors.length < 2) :
    processRow tr = Except.error ExtractErr.indexError ∧
    extract ⟨[⟨[tr]⟩]⟩ attrs = Except.error ExtractErr.indexError := by
  have hlen : ¬tr.tds.length = 0 := by
    intro h0
    rw [List.length_eq_zero.mp h0] at h1
    cases h1
  have hanch : c.anchors.get? 1 = none := by
    rw [List.get?_eq_none]
    omega
  rw [List.get?_eq_getElem?] at h1 hanch
  have hp : processRow tr = Except.error ExtractErr.indexError := by
    simp [processRow, pyIndex, hlen, h1, hanch]
  exact ⟨hp, by simp [extract, extractRows, pyIndex, hp]⟩

/-- The row C6's witness uses: two cells, the name cell holding a single
anchor. -/
def oneAnchorTr : Tr := ⟨[⟨[], ["1"]⟩, ⟨[⟨["only"]⟩], []⟩]⟩

/-- C6 witness: the missing-anchor failure on a concrete row whose name cell
has one anchor. -/
theorem c6_missing_anchor_witness :
    processRow oneAnchorTr = Except.error ExtractErr.indexError ∧
    extract ⟨[⟨[oneAnchorTr]⟩]⟩ ["Name", "MC_USD_Billion"]
      = Except.error ExtractErr.indexError :=
  c6_missing_anchor oneAnchorTr ⟨[⟨["only"]⟩], []⟩ ["Name", "MC_USD_Billion"]
    rfl (by decide)

/-- C7: a successful transform keeps every row, in order (row `i` of the
output corresponds to row `i` of the input), only widens the column set by
the three new converted columns (after overwriting USD in place with its
cleaned numeric value), and leaves every non-metric column of every row —
the name column in particular — unchanged. -/
theorem c7_transform_preservation (df : DataFrame) (rates : Rates)
    (out : DataFrame) (h : transform df rates = some out) :
    out.rows.length = df.rows.length ∧
    out.columns = concatCols df.columns metricCols ∧
    ∀ i r, df.rows.get? i = some r →
      ∃ r', out.rows.get? i = some r' ∧
        (∀ c, c ∉ metricCols → getVal r' c = getVal r c) ∧
        ∃ q, cleanMetric (getVal r "MC_USD_Billion") = some q ∧
          getVal r' "MC_USD_Billion" = Value.num q := by
  obtain ⟨usd, hm, rfl⟩ := transform_some_elim h
  have hlen : usd.length = df.rows.length := by
    rw [mapOpt_length _ hm, colVals_length]
  refine ⟨transformedFrame_rows_length df rates hlen,
    transformedFrame_columns df rates usd, ?_⟩
  intro i r hr
  have hcol : (colVals df "MC_USD_Billion").get? i
      = some (getVal r "MC_USD_Billion") := by
    simp only [colVals]
    rw [List.get?_map, hr]
    rfl
  obtain ⟨q, hq, hqi⟩ := mapOpt_get? cleanMetric hm i _ hcol
  exact ⟨convRow r rates q, transformedFrame_rows_get? hr hqi,
    fun c hc => convRow_other r rates q hc, q, hq, convRow_usd r rates q⟩

/-- C7 witness: row preservation instantiated on the scenario frame. -/
theorem c7_transform_preservation_witness :
    scenarioTransformed.rows.length = scenarioExtracted.rows.length ∧
    scenarioTransformed.columns = concatCols scenarioExtracted.columns metricCols ∧
    ∀ i r, scenarioExtracted.rows.get? i = some r →
      ∃ r', scenarioTransformed.rows.get? i = some r' ∧
        (∀ c, c ∉ metricCols → getVal r' c = getVal r c) ∧
        ∃ q, cleanMetric (getVal r "MC_USD_Billion") = some q ∧
          getVal r' "MC_USD_Billion" = Value.num q :=
  c7_transform_preservation scenarioExtracted scenarioRates scenarioTransformed
    scenario_transform

end Banks
